import Mathlib

/-!
# Verification of the RpnResolver expression engine

Shallow embedding of the Rust sources `src/token.rs` and `src/rpn_resolver.rs`
(crate `yarer`): the numeric model (`Number`), the token layer, the
infix-to-postfix converter (`reverse_polish_notation`, embedded here as
`reversePolish`) and the postfix evaluator (`resolve`).

Modelling conventions:
* Rust `BigInt` is Lean `Int` (both are exact arbitrary-precision integers).
* Rust `f64` is modelled by `F64`: an exact rational together with the IEEE
  special values `+inf`, `-inf`, `NaN`.  Finite arithmetic is exact (no
  rounding); every claim under verification only exercises float values and
  comparisons where IEEE 754 rounding is exact, so this deviation is
  unobservable in the theorems below.  The transcendental primitives of the
  Rust standard library (`f64::sin`, `f64::cos`, `f64::tan`, `f64::powf`) are
  not repository code; they are taken as a parameter (`FloatPrims`), and the
  theorems hold for every interpretation of them.
* Rust panics (`unwrap`, `expect`, divide-by-zero, non-exhaustive matches)
  are modelled as `Except.error` with a describing message, kept distinct
  from the one typed error value that `resolve` itself produces.
-/

namespace Yarer

/-- Model of Rust `f64`: exact rational plus the IEEE special values.
Finite values carry an exact `ℚ` instead of a 53-bit mantissa (documented
deviation, see the file header). -/
inductive F64 where
  | finite (q : ℚ)
  | pinf
  | ninf
  | nan
deriving DecidableEq, Repr

/-- Three-way comparison of rationals, used to model `f64` comparisons. -/
def ratCmp (a b : ℚ) : Ordering :=
  if a < b then .lt else if a = b then .eq else .gt

/-- Rational addition written through `mkRat` (kernel-evaluable, unlike the
`Rat.add` used by the `+` instance). -/
def ratAdd (a b : ℚ) : ℚ := mkRat (a.num * b.den + b.num * a.den) (a.den * b.den)

/-- Rational subtraction written through `mkRat`. -/
def ratSub (a b : ℚ) : ℚ := mkRat (a.num * b.den - b.num * a.den) (a.den * b.den)

/-- Rational multiplication written through `mkRat`. -/
def ratMul (a b : ℚ) : ℚ := mkRat (a.num * b.num) (a.den * b.den)

/-- Rational division written through `mkRat`; callers guard the zero
divisor themselves. -/
def ratDivQ (a b : ℚ) : ℚ :=
  mkRat (if 0 ≤ b.num then a.num * b.den else -(a.num * b.den)) (a.den * b.num.natAbs)

/-- IEEE comparison of two `f64` values; `none` models an unordered
comparison (any `NaN` operand). -/
def F64.cmp : F64 → F64 → Option Ordering
  | .nan, _ => none
  | _, .nan => none
  | .pinf, .pinf => some .eq
  | .pinf, _ => some .gt
  | .ninf, .ninf => some .eq
  | .ninf, _ => some .lt
  | .finite _, .pinf => some .lt
  | .finite _, .ninf => some .gt
  | .finite a, .finite b => some (ratCmp a b)

/-- IEEE `==` on `f64` (Rust `PartialEq` for `f64`): `NaN` is equal to
nothing, `inf` equals `inf`, finite values compare exactly. -/
def F64.ieeeEq (a b : F64) : Bool :=
  F64.cmp a b == some .eq

/-- IEEE addition on the `F64` model. -/
def F64.add : F64 → F64 → F64
  | .nan, _ => .nan
  | _, .nan => .nan
  | .pinf, .ninf => .nan
  | .ninf, .pinf => .nan
  | .pinf, _ => .pinf
  | _, .pinf => .pinf
  | .ninf, _ => .ninf
  | _, .ninf => .ninf
  | .finite a, .finite b => .finite (ratAdd a b)

/-- IEEE subtraction on the `F64` model. -/
def F64.sub : F64 → F64 → F64
  | .nan, _ => .nan
  | _, .nan => .nan
  | .pinf, .pinf => .nan
  | .ninf, .ninf => .nan
  | .pinf, _ => .pinf
  | _, .pinf => .ninf
  | .ninf, _ => .ninf
  | _, .ninf => .pinf
  | .finite a, .finite b => .finite (ratSub a b)

/-- IEEE multiplication on the `F64` model (`inf * 0 = NaN`; signed zeros
are not modelled). -/
def F64.mul : F64 → F64 → F64
  | .nan, _ => .nan
  | _, .nan => .nan
  | .pinf, .pinf => .pinf
  | .pinf, .ninf => .ninf
  | .ninf, .pinf => .ninf
  | .ninf, .ninf => .pinf
  | .pinf, .finite q => if q = 0 then .nan else if 0 < q then .pinf else .ninf
  | .finite q, .pinf => if q = 0 then .nan else if 0 < q then .pinf else .ninf
  | .ninf, .finite q => if q = 0 then .nan else if 0 < q then .ninf else .pinf
  | .finite q, .ninf => if q = 0 then .nan else if 0 < q then .ninf else .pinf
  | .finite a, .finite b => .finite (ratMul a b)

/-- IEEE division on the `F64` model: a nonzero finite value divided by zero
is a signed infinity, `0/0` and `inf/inf` are `NaN`; division never fails. -/
def F64.div : F64 → F64 → F64
  | .nan, _ => .nan
  | _, .nan => .nan
  | .pinf, .pinf => .nan
  | .pinf, .ninf => .nan
  | .ninf, .pinf => .nan
  | .ninf, .ninf => .nan
  | .pinf, .finite q => if q < 0 then .ninf else .pinf
  | .ninf, .finite q => if q < 0 then .pinf else .ninf
  | .finite _, .pinf => .finite 0
  | .finite _, .ninf => .finite 0
  | .finite a, .finite b =>
    if b = 0 then (if a = 0 then .nan else if 0 < a then .pinf else .ninf)
    else .finite (ratDivQ a b)

/-- Rust `f64::abs`. -/
def F64.absF : F64 → F64
  | .nan => .nan
  | .pinf => .pinf
  | .ninf => .pinf
  | .finite q => .finite |q|

/-- Rust `f64::max`: ignores a `NaN` operand, otherwise the larger value. -/
def F64.maxF : F64 → F64 → F64
  | .nan, b => b
  | a, .nan => a
  | a, b => if F64.cmp a b = some .lt then b else a

/-- Rust `f64::min`: ignores a `NaN` operand, otherwise the smaller value. -/
def F64.minF : F64 → F64 → F64
  | .nan, b => b
  | a, .nan => a
  | a, b => if F64.cmp a b = some .gt then b else a

/-- Interpretation of the Rust standard library float primitives used by the
evaluator (`f64::sin`, `f64::cos`, `f64::tan`, `f64::powf`).  These are not
repository code, so the embedding is parametric in them. -/
structure FloatPrims where
  sinF : F64 → F64
  cosF : F64 → F64
  tanF : F64 → F64
  powf : F64 → F64 → F64

/-- An arbitrary concrete interpretation of the float primitives, used to
instantiate witnesses and counterexamples (none of them depends on the
values these functions return). -/
def defaultPrims : FloatPrims :=
  { sinF := fun _ => .nan
    cosF := fun _ => .nan
    tanF := fun _ => .nan
    powf := fun _ _ => .nan }

/-- `enum Number` from `src/token.rs`: either a `BigInt` integer
(`NaturalNumber`) or an `f64` float (`DecimalNumber`). -/
inductive Number where
  | naturalNumber (v : Int)
  | decimalNumber (v : F64)
deriving DecidableEq, Repr

/-- `ToPrimitive::to_f64` on a `BigInt`, modelled exactly (the Rust
conversion rounds once the integer exceeds 2^53; every claim below only
converts integers where the conversion is exact). -/
def intToF64 (i : Int) : F64 := .finite (i : ℚ)

/-- `impl From<Number> for f64` from `src/token.rs`. -/
def numberToF64 : Number → F64
  | .naturalNumber v => intToF64 v
  | .decimalNumber v => v

/-- `apply_functional_token_operation` from `src/token.rs`: dispatches a
binary operation on two `Number`s, promoting to float as soon as the left or
right operand is a float.  The integer closure `nf` returns `Except` so that
a panicking closure (division by zero, power with an unrepresentable
exponent) can be modelled. -/
def apply_functional_token_operation
    (nf : Int → Int → Except String Int) (df : F64 → F64 → F64) :
    Number → Number → Except String Number
  | .naturalNumber v1, .naturalNumber v2 => (nf v1 v2).map .naturalNumber
  | .naturalNumber v1, .decimalNumber v2 => .ok (.decimalNumber (df (intToF64 v1) v2))
  | .decimalNumber v1, rn => .ok (.decimalNumber (df v1 (numberToF64 rn)))

/-- `impl Add for Number` from `src/token.rs`. -/
def Number.addN : Number → Number → Except String Number :=
  apply_functional_token_operation (fun a b => .ok (a + b)) F64.add

/-- `impl Sub for Number` from `src/token.rs`. -/
def Number.subN : Number → Number → Except String Number :=
  apply_functional_token_operation (fun a b => .ok (a - b)) F64.sub

/-- `impl Mul for Number` from `src/token.rs`. -/
def Number.mulN : Number → Number → Except String Number :=
  apply_functional_token_operation (fun a b => .ok (a * b)) F64.mul

/-- `impl Div for Number` from `src/token.rs`: integer division is `BigInt`
division (truncating toward zero), which panics on a zero divisor; float
division is IEEE and total. -/
def Number.divN : Number → Number → Except String Number :=
  apply_functional_token_operation
    (fun a b => if b = 0 then .error "attempt to divide by zero" else .ok (Int.tdiv a b))
    F64.div

/-- `u32::MAX`, the true bound of the power operator's exponent: with only
`num_bigint::BigInt` and the `num_traits` conversion traits in scope (no
`Pow` trait), `BigInt::pow(&a, …)` resolves to the inherent method
`pow(&self, exponent: u32)`, so the source's `b.try_into()` is
`TryInto<u32>` — the `expect` message text says "usize", but the converted
type is `u32`. -/
def u32Max : Int := 2 ^ 32 - 1

/-- `impl BitXor for Number` (the power operator) from `src/token.rs`:
integer base and exponent use exact `BigInt::pow`, after `try_into` converts
the exponent to the `u32` that the inherent `pow` method takes — panicking
(`expect("Exponent must fit in usize")`, whose message names the wrong
type) when the exponent is negative or exceeds `u32::MAX`; any float
operand uses `f64::powf`. -/
def Number.powN (P : FloatPrims) : Number → Number → Except String Number :=
  apply_functional_token_operation
    (fun a b =>
      if 0 ≤ b ∧ b ≤ u32Max then .ok (a ^ b.toNat)
      else .error "Exponent must fit in usize")
    P.powf

/-- `impl PartialOrd for Number` from `src/token.rs`: pairwise comparison,
converting the integer side to `f64` in the mixed cases. -/
def Number.partialCmp : Number → Number → Option Ordering
  | .naturalNumber v1, .naturalNumber v2 => some (ratCmp v1 v2)
  | .naturalNumber v1, .decimalNumber v2 => F64.cmp (intToF64 v1) v2
  | .decimalNumber v1, .naturalNumber v2 => F64.cmp v1 (intToF64 v2)
  | .decimalNumber v1, .decimalNumber v2 => F64.cmp v1 v2

/-- The `#[derive(PartialEq)]` equality of `Number` from `src/token.rs`:
structural — two values of different variants are never equal; two floats
compare with IEEE `==`. -/
def Number.eqRust : Number → Number → Bool
  | .naturalNumber a, .naturalNumber b => a == b
  | .decimalNumber a, .decimalNumber b => F64.ieeeEq a b
  | _, _ => false

/-- Rust `lt` as derived from `PartialOrd::partial_cmp`. -/
def Number.ltRust (a b : Number) : Bool :=
  Number.partialCmp a b == some .lt

/-- Decimal rendering of a rational whose denominator divides a power of
ten (every `f64` value is such a rational).  Approximates Rust's
shortest-roundtrip float `Display`; for integral values both print the bare
integer, which is the only case the claims exercise. -/
def ratDisplay (q : ℚ) : String :=
  if q.den = 1 then toString q.num
  else
    match (List.range 400).find? (fun k => (10 : Int) ^ k % (q.den : Int) = 0) with
    | some k =>
      let m : Int := q.num * (10 : Int) ^ k / (q.den : Int)
      let ds := (toString m.natAbs).data
      let ds := if ds.length ≥ k + 1 then ds
        else List.replicate (k + 1 - ds.length) '0' ++ ds
      let intPart := ds.take (ds.length - k)
      let fracPart := ds.drop (ds.length - k)
      (if q.num < 0 then "-" else "") ++ String.mk intPart ++ "." ++ String.mk fracPart
    | none => toString q.num ++ "/" ++ toString q.den

/-- Rust `Display` for `f64` (model). -/
def F64.display : F64 → String
  | .finite q => ratDisplay q
  | .pinf => "inf"
  | .ninf => "-inf"
  | .nan => "NaN"

/-- `impl Display for Number` from `src/token.rs` (the `to_string` used by
the evaluator's `Eql` case): integers print in exact decimal form, floats
via float formatting. -/
def Number.display : Number → String
  | .naturalNumber v => toString v
  | .decimalNumber v => F64.display v

/-- `enum Operator` from `src/token.rs`. -/
inductive Operator where
  | add | sub | mul | div | pow | une | fac | eql
deriving DecidableEq, Repr

/-- `enum Associate` from `src/token.rs`. -/
inductive Associate where
  | leftAssociative | rightAssociative
deriving DecidableEq, Repr

/-- `enum Bracket` from `src/token.rs` (`openB` is `Open`, `closeB` is
`Close`; renamed because `open` is a Lean keyword). -/
inductive Bracket where
  | openB | closeB
deriving DecidableEq, Repr

/-- `enum MathFunction` from `src/token.rs` (`noneF` is the `None`
sentinel). -/
inductive MathFunction where
  | sin | cos | tan | asin | acos | atan | ln | log | abs | sqrt | max | min | noneF
deriving DecidableEq, Repr

/-- `enum Token` from `src/token.rs` (`var` is the `Variable` constructor;
renamed because `variable` is a Lean keyword). -/
inductive Token where
  | operand (n : Number)
  | operator (o : Operator)
  | bracket (b : Bracket)
  | function (f : MathFunction)
  | var (s : String)
deriving DecidableEq, Repr

/-- `Token::from_operator` from `src/token.rs`. -/
def Token.from_operator (c : Char) : Option Token :=
  if c = '+' then some (.operator .add)
  else if c = '-' then some (.operator .sub)
  else if c = '*' then some (.operator .mul)
  else if c = '/' then some (.operator .div)
  else if c = '^' then some (.operator .pow)
  else if c = '#' then some (.operator .une)
  else if c = '!' then some (.operator .fac)
  else if c = '=' then some (.operator .eql)
  else none

/-- `Token::from_bracket` from `src/token.rs`. -/
def Token.from_bracket (c : Char) : Option Token :=
  if c = '(' ∨ c = '[' then some (.bracket .openB)
  else if c = ')' ∨ c = ']' then some (.bracket .closeB)
  else none

/-- ASCII lower-casing of a character (model of the effect of Rust
`str::to_lowercase` on the ASCII identifiers the tokenizer deals with). -/
def charToLower (c : Char) : Char :=
  if 'A' ≤ c ∧ c ≤ 'Z' then Char.ofNat (c.toNat + 32) else c

/-- ASCII lower-casing of a string, written over the character list so the
kernel can evaluate it. -/
def toLowerStr (s : String) : String :=
  String.mk (s.data.map charToLower)

/-- `Token::get_some` from `src/token.rs`: case-insensitive lookup of a
function name.  `max`/`min` are commented out in the source and hence
absent here as well. -/
def Token.get_some (fn : String) : Option MathFunction :=
  match toLowerStr fn with
  | "sin" => some .sin
  | "cos" => some .cos
  | "tan" => some .tan
  | "asin" => some .asin
  | "acos" => some .acos
  | "atan" => some .atan
  | "ln" => some .ln
  | "log" => some .log
  | "abs" => some .abs
  | "sqrt" => some .sqrt
  | _ => none

/-- All-ASCII-digit run parsed as a natural number (most significant digit
first); `none` on an empty or non-digit run. -/
def parseDigits (cs : List Char) : Option Nat :=
  match cs with
  | [] => none
  | _ =>
    cs.foldl
      (fun acc c =>
        acc.bind fun n => if c.isDigit then some (n * 10 + (c.toNat - 48)) else none)
      (some 0)

/-- Rust `str::parse::<BigInt>`: an optional sign followed by at least one
decimal digit, nothing else. -/
def parseBigInt (s : String) : Option Int :=
  match s.data with
  | '+' :: rest => (parseDigits rest).map Int.ofNat
  | '-' :: rest => (parseDigits rest).map (fun n => -(n : Int))
  | l => (parseDigits l).map Int.ofNat

/-- The exact rational `m * 10^e` built through `mkRat`
(kernel-evaluable). -/
def scaledDecimal (m : Int) (fracLen : Nat) (e : Int) : ℚ :=
  if 0 ≤ e then mkRat (m * (10 : Int) ^ e.toNat) ((10 : Nat) ^ fracLen)
  else mkRat m ((10 : Nat) ^ fracLen * (10 : Nat) ^ (-e).toNat)

/-- Rust `str::parse::<f64>` (model): an optional sign, then
`digits [. digits] [e|E [sign] digits]` or `. digits …`, requiring at least
one digit in the mantissa.  The `inf`/`NaN` keyword forms of the Rust
grammar are not modelled (no claim exercises them), and the value is exact
rather than rounded to 53 bits. -/
def parseF64 (s : String) : Option F64 :=
  let core : List Char → Option F64 := fun cs =>
    let intPart := cs.takeWhile Char.isDigit
    let rest := cs.dropWhile Char.isDigit
    let (fracPart, rest2) :=
      match rest with
      | '.' :: r => (r.takeWhile Char.isDigit, r.dropWhile Char.isDigit)
      | _ => ([], rest)
    let (expVal, rest3) : Option Int × List Char :=
      match rest2 with
      | 'e' :: '+' :: r => ((parseDigits (r.takeWhile Char.isDigit)).map Int.ofNat, r.dropWhile Char.isDigit)
      | 'e' :: '-' :: r => ((parseDigits (r.takeWhile Char.isDigit)).map (fun n => -(n : Int)), r.dropWhile Char.isDigit)
      | 'e' :: r => ((parseDigits (r.takeWhile Char.isDigit)).map Int.ofNat, r.dropWhile Char.isDigit)
      | 'E' :: '+' :: r => ((parseDigits (r.takeWhile Char.isDigit)).map Int.ofNat, r.dropWhile Char.isDigit)
      | 'E' :: '-' :: r => ((parseDigits (r.takeWhile Char.isDigit)).map (fun n => -(n : Int)), r.dropWhile Char.isDigit)
      | 'E' :: r => ((parseDigits (r.takeWhile Char.isDigit)).map Int.ofNat, r.dropWhile Char.isDigit)
      | _ => (some 0, rest2)
    if intPart = [] ∧ fracPart = [] then none
    else if rest3 ≠ [] then none
    else
      expVal.map fun e =>
        let mant : Int :=
          Int.ofNat (((parseDigits intPart).getD 0) * 10 ^ fracPart.length +
            (parseDigits fracPart).getD 0)
        .finite (scaledDecimal mant fracPart.length e)
  match s.data with
  | '+' :: cs => core cs
  | '-' :: cs => (core cs).map fun f =>
      match f with
      | .finite q => .finite (-q)
      | other => other
  | cs => core cs

/-- `Token::tokenize` from `src/token.rs`: dispatch on the first character
for operator/bracket symbols, then try integer literal, float literal,
function name, and fall back to a variable.  In the source the operator and
bracket branches `unwrap` a `from_operator`/`from_bracket` result that is
`Some` by construction; here the option is returned directly. -/
def Token.tokenize (t : String) : Option Token :=
  match t.data with
  | [] => none
  | c :: _ =>
    if c = '+' ∨ c = '-' ∨ c = '*' ∨ c = '/' ∨ c = '^' ∨ c = '!' ∨ c = '=' then
      Token.from_operator c
    else if c = '(' ∨ c = ')' ∨ c = '[' ∨ c = ']' then
      Token.from_bracket c
    else
      match parseBigInt t with
      | some v => some (.operand (.naturalNumber v))
      | none =>
        match parseF64 t with
        | some f => some (.operand (.decimalNumber f))
        | none =>
          match Token.get_some t with
          | some fn => some (.function fn)
          | none => some (.var t)

/-- `Token::operator_priority` from `src/token.rs`; `none` models the panic
on a non-operator token. -/
def Token.operator_priority : Token → Option (Nat × Associate)
  | .operator .add => some (1, .leftAssociative)
  | .operator .sub => some (1, .leftAssociative)
  | .operator .mul => some (2, .leftAssociative)
  | .operator .div => some (2, .leftAssociative)
  | .operator .pow => some (3, .rightAssociative)
  | .operator .une => some (4, .rightAssociative)
  | .operator .fac => some (5, .leftAssociative)
  | .operator .eql => some (0, .leftAssociative)
  | _ => none

/-- `Token::compare_operator_priority` from `src/token.rs`: true when `op1`
is left-associative with precedence ≤ `op2`'s, or right-associative with
precedence < `op2`'s.  The source panics on non-operator arguments (the
converter never passes any); that unreachable case is `false` here. -/
def Token.compare_operator_priority (op1 op2 : Token) : Bool :=
  match Token.operator_priority op1, Token.operator_priority op2 with
  | some v1, some v2 =>
    (v1.2 == .leftAssociative && v1.1 ≤ v2.1)
      || (v1.2 == .rightAssociative && decide (v1.1 < v2.1))
  | _, _ => false

/-- `HashMap<String, Number>` modelled as an association list with unique
keys (iteration order is never observed by the code under verification). -/
abbrev Heap := List (String × Number)

/-- `HashMap::insert`: replace the value of an existing key, or append a
fresh binding. -/
def heapInsert : Heap → String → Number → Heap
  | [], k, v => [(k, v)]
  | (k', v') :: rest, k, v =>
    if k' = k then (k, v) :: rest else (k', v') :: heapInsert rest k v

/-- `HashMap::get`. -/
def heapGet : Heap → String → Option Number
  | [], _ => none
  | (k', v') :: rest, k => if k' = k then some v' else heapGet rest k

/-- `RpnResolver::init_local_heap` from `src/rpn_resolver.rs`: the variable
environment pre-seeded with `PI = 3.1415` (a fixed `f64` literal). -/
def init_local_heap : Heap :=
  [("PI", .decimalNumber (.finite (mkRat 31415 10000)))]

/-- The close-bracket loop of `reverse_polish_notation`: pop operators to
the output queue until an open bracket is popped (and discarded) or the
stack runs out.  The operator stack is a list with its top at the head;
the output queue grows at the tail. -/
def popUntilOpen : List Token → List Token → List Token × List Token
  | [], post => ([], post)
  | tok :: rest, post =>
    match tok with
    | .bracket .openB => (rest, post)
    | _ => popUntilOpen rest (post ++ [tok])

/-- One scanned token of `RpnResolver::reverse_polish_notation` from
`src/rpn_resolver.rs`, transforming `(operator stack, output queue, heap)`.
For an operator token the source compares against the top of the stack with
a single `if` — it pops at most one operator before pushing (the comment
above it describes a `while` loop, but the code is an `if`).  A variable
token is appended to the output and unconditionally inserted into the heap
with value integer zero. -/
def rpnConvStep (t : Token) (ops post : List Token) (heap : Heap) :
    List Token × List Token × Heap :=
  match t with
  | .operand _ => (ops, post ++ [t], heap)
  | .bracket .openB => (t :: ops, post, heap)
  | .bracket .closeB =>
    let r := popUntilOpen ops post
    (r.1, r.2, heap)
  | .operator _ =>
    match ops with
    | [] => (t :: ops, post, heap)
    | op2 :: opsRest =>
      match op2 with
      | .operator _ =>
        if Token.compare_operator_priority t op2 then
          (t :: opsRest, post ++ [op2], heap)
        else (t :: ops, post, heap)
      | _ => (t :: ops, post, heap)
  | .function _ => (t :: ops, post, heap)
  | .var s => (ops, post ++ [t], heapInsert heap s (.naturalNumber 0))

/-- The scan loop of `reverse_polish_notation`, followed by the final flush
of the remaining operator stack onto the output queue. -/
def rpnScan : List Token → List Token → List Token → Heap → List Token × Heap
  | [], ops, post, heap => (post ++ ops, heap)
  | t :: rest, ops, post, heap =>
    let s := rpnConvStep t ops post heap
    rpnScan rest s.1 s.2.1 s.2.2

/-- `RpnResolver::reverse_polish_notation` from `src/rpn_resolver.rs`:
infix token list to (postfix token list, seeded variable environment). -/
def reversePolish (infixStack : List Token) : List Token × Heap :=
  rpnScan infixStack [] [] init_local_heap

/-- Outcome of `RpnResolver::resolve`: the `Ok` value, the typed `Err`
value, or a Rust panic (which the source reaches through `unwrap` on an
operand pop and through the non-exhaustive operator/function matches). -/
inductive RResult where
  | ok (n : Number)
  | err (m : String)
  | fatal (m : String)
deriving DecidableEq, Repr

/-- One iteration of the evaluator loop in `RpnResolver::resolve` from
`src/rpn_resolver.rs`, processing a single popped token against the operand
stack (a `VecDeque` used as a stack: the head of the list is its back, the
most recently pushed value) and the variable environment.  `Except.error`
models the panics: popping an empty stack, the operator match with no arm
for `Une`/`Fac`, the function match with no arm for
`ASin/ACos/ATan/Ln/Log/Sqrt`, the `None` sentinel, and the catch-all panic
for bracket tokens. -/
def rpnStep (P : FloatPrims) (t : Token) (stack : List Number) (heap : Heap) :
    Except String (List Number × Heap) :=
  match t with
  | .operand n => .ok (n :: stack, heap)
  | .operator op =>
    match stack with
    | rightValue :: leftValue :: st =>
      match op with
      | .add => (Number.addN leftValue rightValue).map fun n => (n :: st, heap)
      | .sub => (Number.subN leftValue rightValue).map fun n => (n :: st, heap)
      | .mul => (Number.mulN leftValue rightValue).map fun n => (n :: st, heap)
      | .div => (Number.divN leftValue rightValue).map fun n => (n :: st, heap)
      | .pow => (Number.powN P leftValue rightValue).map fun n => (n :: st, heap)
      | .eql => .ok (rightValue :: st, heapInsert heap (Number.display leftValue) rightValue)
      | .une => .error "match on Operator is non-exhaustive: no arm for Une"
      | .fac => .error "match on Operator is non-exhaustive: no arm for Fac"
    | _ => .error "unwrap on an empty operand stack"
  | .function fn =>
    match stack with
    | value :: st =>
      match fn with
      | .sin => .ok (.decimalNumber (P.sinF (numberToF64 value)) :: st, heap)
      | .cos => .ok (.decimalNumber (P.cosF (numberToF64 value)) :: st, heap)
      | .tan => .ok (.decimalNumber (P.tanF (numberToF64 value)) :: st, heap)
      | .abs => .ok (.decimalNumber (F64.absF (numberToF64 value)) :: st, heap)
      | .max =>
        match st with
        | value2 :: st2 =>
          .ok (.decimalNumber (F64.maxF (numberToF64 value) (numberToF64 value2)) :: st2, heap)
        | [] => .error "unwrap on an empty operand stack"
      | .min =>
        match st with
        | value2 :: st2 =>
          .ok (.decimalNumber (F64.minF (numberToF64 value) (numberToF64 value2)) :: st2, heap)
        | [] => .error "unwrap on an empty operand stack"
      | .noneF => .error "This should not happen!"
      | _ => .error "match on MathFunction is non-exhaustive: no arm for this function"
    | [] => .error "unwrap on an empty operand stack"
  | .var v =>
    .ok ((heapGet heap v).getD (.naturalNumber 0) :: stack, heap)
  | .bracket _ => .error "This token cannot be yet recognised!"

/-- The evaluator loop of `RpnResolver::resolve`: consume the postfix
sequence front to back, threading the operand stack and the environment. -/
def runRpn (P : FloatPrims) :
    List Token → List Number → Heap → Except String (List Number × Heap)
  | [], stack, heap => .ok (stack, heap)
  | t :: rest, stack, heap =>
    match rpnStep P t stack heap with
    | .error m => .error m
    | .ok s => runRpn P rest s.1 s.2

/-- `RpnResolver::resolve` from `src/rpn_resolver.rs`: run the postfix
sequence and then `pop_front` the result stack — the FIRST value pushed
(the head of the `VecDeque`, i.e. the last element of our head-is-back
list) — with the typed error `"Something went terribly wrong here."` when
the final stack is empty. -/
def resolve (P : FloatPrims) (rpnExpr : List Token) (heap : Heap) : RResult :=
  match runRpn P rpnExpr [] heap with
  | .error m => .fatal m
  | .ok (st, _) =>
    match st.getLast? with
    | some n => .ok n
    | none => .err "Something went terribly wrong here."

/-- Modelled from the spec: `Parser::parse` (module `src/parser.rs` is not
under `src/`; only its callers are).  §4.2 of the spec: split the input on
whitespace and the single-character symbols `+ - * / ^ ! = ( ) [ ]` so that
each symbol is its own chunk and contiguous non-symbol runs are their own
chunks. -/
def isSymbolChar (c : Char) : Bool :=
  c = '+' ∨ c = '-' ∨ c = '*' ∨ c = '/' ∨ c = '^' ∨ c = '!' ∨ c = '=' ∨
    c = '(' ∨ c = ')' ∨ c = '[' ∨ c = ']'

/-- Chunking loop for the modelled parser: `acc` is the current non-symbol
run, reversed. -/
def splitChunksAux : List Char → List Char → List String
  | [], acc => if acc = [] then [] else [String.mk acc.reverse]
  | c :: cs, acc =>
    let flush := if acc = [] then [] else [String.mk acc.reverse]
    if c.isWhitespace then flush ++ splitChunksAux cs []
    else if isSymbolChar c then flush ++ [String.mk [c]] ++ splitChunksAux cs []
    else splitChunksAux cs (c :: acc)

/-- Modelled from the spec: the chunking phase of `Parser::parse`. -/
def splitChunks (s : String) : List String :=
  splitChunksAux s.data []

/-- Modelled from the spec: `Parser::parse` — chunk the raw string and
classify every chunk with `Token::tokenize` (which is translated from
`src/token.rs`). -/
def Parser.parse (s : String) : Option (List Token) :=
  (splitChunks s).mapM Token.tokenize

/-- `RpnResolver::parse` from `src/rpn_resolver.rs`: tokenize (via the
modelled parser) and convert to postfix; `none` models the `unwrap` panic
on a parser failure. -/
def RpnResolver.parse (exp : String) : Option (List Token × Heap) :=
  (Parser.parse exp).map reversePolish

/-! ## Helper lemmas -/

instance {ε α : Type _} [DecidableEq ε] [DecidableEq α] : DecidableEq (Except ε α) := fun a b =>
  match a, b with
  | .ok x, .ok y =>
    if h : x = y then .isTrue (by rw [h]) else .isFalse (fun hh => h (by cases hh; rfl))
  | .error x, .error y =>
    if h : x = y then .isTrue (by rw [h]) else .isFalse (fun hh => h (by cases hh; rfl))
  | .ok _, .error _ => .isFalse (fun hh => Except.noConfusion hh)
  | .error _, .ok _ => .isFalse (fun hh => Except.noConfusion hh)

theorem heapGet_insert_self (h : Heap) (k : String) (v : Number) :
    heapGet (heapInsert h k v) k = some v := by
  induction h with
  | nil => simp [heapInsert, heapGet]
  | cons p rest ih =>
    obtain ⟨k', v'⟩ := p
    by_cases hk : k' = k
    · subst hk; simp [heapInsert, heapGet]
    · simp [heapInsert, heapGet, hk, ih]

theorem heapGet_insert_ne (h : Heap) (k k' : String) (v : Number) (hne : k' ≠ k) :
    heapGet (heapInsert h k' v) k = heapGet h k := by
  induction h with
  | nil => simp [heapInsert, heapGet, hne]
  | cons p rest ih =>
    obtain ⟨k0, v0⟩ := p
    by_cases hk : k0 = k'
    · subst hk; simp [heapInsert, heapGet, hne, ih]
    · simp only [heapInsert, if_neg hk]
      by_cases hk2 : k0 = k
      · simp [heapGet, hk2]
      · simp [heapGet, hk2, ih]

/-- The conversion step either leaves the heap unchanged or (for a variable
token) inserts integer zero for that identifier. -/
theorem rpnConvStep_heap (t : Token) (ops post : List Token) (heap : Heap) :
    (rpnConvStep t ops post heap).2.2 = heap ∨
    ∃ s, t = .var s ∧
      (rpnConvStep t ops post heap).2.2 = heapInsert heap s (.naturalNumber 0) := by
  cases t with
  | var s => exact Or.inr ⟨s, rfl, rfl⟩
  | operand n => exact Or.inl rfl
  | function f => exact Or.inl rfl
  | bracket b => cases b with
    | openB => exact Or.inl rfl
    | closeB => exact Or.inl rfl
  | operator o =>
    left
    cases ops with
    | nil => rfl
    | cons op2 rest =>
      cases op2 with
      | operator o2 =>
        simp only [rpnConvStep]
        split <;> rfl
      | operand n => rfl
      | bracket b => rfl
      | function f => rfl
      | var s => rfl

/-- A key bound to integer zero stays bound to integer zero through the
whole scan (the scan only ever inserts integer zero). -/
theorem rpnScan_heap_zero (s : String) :
    ∀ (ts ops post : List Token) (heap : Heap),
      heapGet heap s = some (.naturalNumber 0) →
      heapGet (rpnScan ts ops post heap).2 s = some (.naturalNumber 0) := by
  intro ts
  induction ts with
  | nil => intro ops post heap h; simpa [rpnScan] using h
  | cons t rest ih =>
    intro ops post heap h
    simp only [rpnScan]
    rcases rpnConvStep_heap t ops post heap with heq | ⟨s', _, heq⟩
    · exact ih _ _ _ (by rw [heq]; exact h)
    · refine ih _ _ _ ?_
      rw [heq]
      by_cases hss : s' = s
      · subst hss; exact heapGet_insert_self ..
      · rw [heapGet_insert_ne _ _ _ _ hss]; exact h

/-- Scanning a token list containing `Variable s` leaves `s` bound to
integer zero in the produced environment. -/
theorem rpnScan_heap_mem (s : String) :
    ∀ (ts ops post : List Token) (heap : Heap),
      Token.var s ∈ ts →
      heapGet (rpnScan ts ops post heap).2 s = some (.naturalNumber 0) := by
  intro ts
  induction ts with
  | nil => intro _ _ _ h; cases h
  | cons t rest ih =>
    intro ops post heap h
    rcases List.mem_cons.mp h with rfl | hrest
    · simp only [rpnScan]
      exact rpnScan_heap_zero s _ _ _ _ (heapGet_insert_self ..)
    · simp only [rpnScan]
      exact ih _ _ _ hrest

/-- Scanning a token list not containing `Variable s` does not change what
`s` is bound to. -/
theorem rpnScan_heap_not_mem (s : String) :
    ∀ (ts ops post : List Token) (heap : Heap),
      Token.var s ∉ ts →
      heapGet (rpnScan ts ops post heap).2 s = heapGet heap s := by
  intro ts
  induction ts with
  | nil => intro _ _ _ _; simp [rpnScan]
  | cons t rest ih =>
    intro ops post heap h
    have ht : t ≠ Token.var s := fun hh => h (hh ▸ List.mem_cons_self t rest)
    have hrest : Token.var s ∉ rest := fun hh => h (List.mem_cons_of_mem t hh)
    simp only [rpnScan]
    rcases rpnConvStep_heap t ops post heap with heq | ⟨s', hts, heq⟩
    · rw [ih _ _ _ hrest, heq]
    · have hss : s' ≠ s := fun hh => ht (by rw [hts, hh])
      rw [ih _ _ _ hrest, heq, heapGet_insert_ne _ _ _ _ hss]

/-- A run of operand tokens pushes all of them (most recent at the head). -/
theorem runRpn_operands (P : FloatPrims) :
    ∀ (ns : List Number) (stack : List Number) (heap : Heap),
      runRpn P (ns.map Token.operand) stack heap = .ok (ns.reverse ++ stack, heap) := by
  intro ns
  induction ns with
  | nil => intro stack heap; rfl
  | cons n rest ih =>
    intro stack heap
    simp only [List.map_cons, runRpn, rpnStep, ih, List.reverse_cons, List.append_assoc,
      List.singleton_append]

/-- The evaluator step on the `Une` operator always errors (the operator
match in the source has no arm for it; with fewer than two operands the
preceding pops already panic). -/
theorem rpnStep_une_error (P : FloatPrims) (stack : List Number) (heap : Heap) :
    ∃ m, rpnStep P (.operator .une) stack heap = .error m := by
  match stack with
  | [] => exact ⟨_, rfl⟩
  | [a] => exact ⟨_, rfl⟩
  | a :: b :: st => exact ⟨_, rfl⟩

/-- The evaluator step on the `Fac` operator always errors. -/
theorem rpnStep_fac_error (P : FloatPrims) (stack : List Number) (heap : Heap) :
    ∃ m, rpnStep P (.operator .fac) stack heap = .error m := by
  match stack with
  | [] => exact ⟨_, rfl⟩
  | [a] => exact ⟨_, rfl⟩
  | a :: b :: st => exact ⟨_, rfl⟩

/-- A postfix sequence containing `Une` or `Fac` can never evaluate to an
`ok` outcome: either an earlier token already fails, or the run reaches the
`Une`/`Fac` token and fails there. -/
theorem runRpn_une_fac_not_ok (P : FloatPrims) :
    ∀ (rpnExpr : List Token),
      Token.operator .une ∈ rpnExpr ∨ Token.operator .fac ∈ rpnExpr →
      ∀ (stack : List Number) (heap : Heap) (st : List Number) (h2 : Heap),
        runRpn P rpnExpr stack heap ≠ .ok (st, h2) := by
  intro rpnExpr
  induction rpnExpr with
  | nil => intro h; rcases h with h | h <;> cases h
  | cons t rest ih =>
    intro h stack heap st h2
    simp only [runRpn]
    cases hstep : rpnStep P t stack heap with
    | error m => simp
    | ok s =>
      have hmem : Token.operator .une ∈ rest ∨ Token.operator .fac ∈ rest := by
        rcases h with h | h <;> rcases List.mem_cons.mp h with heq | hr
        · obtain ⟨m, hm⟩ := rpnStep_une_error P stack heap
          rw [← heq, hm] at hstep; cases hstep
        · exact Or.inl hr
        · obtain ⟨m, hm⟩ := rpnStep_fac_error P stack heap
          rw [← heq, hm] at hstep; cases hstep
        · exact Or.inr hr
      exact ih hmem s.1 s.2 st h2

/-- `Token::tokenize` never produces the unary-negate operator: `'#'` is
not in the operator-character dispatch, and every later classification
branch produces an operand, function or variable token. -/
theorem tokenize_never_une (s : String) :
    Token.tokenize s ≠ some (.operator .une) := by
  unfold Token.tokenize
  split
  · simp
  · next c _ =>
    split
    · next h => rcases h with rfl | rfl | rfl | rfl | rfl | rfl | rfl <;> decide
    · split
      · next h => rcases h with rfl | rfl | rfl | rfl <;> decide
      · split
        · simp
        · split
          · simp
          · split <;> simp

/-! ## Claims -/

/-- Claim C1.  The claim states that an incoming operator pops stacked
operators REPEATEDLY (a while loop), so that converting `2^3^2+1` moves
both `^` operators to the output before `+`.  The code pops at most once:
the source guards the pop with an `if` (its own comment and the spec
describe a `while`).  Consequently `2^3^2+1` converts to postfix
`2 3 2 ^ 1 + ^` — the second `^` lands AFTER `+` — which evaluates to
`2^(3^2+1) = 1024` instead of `2^(3^2)+1 = 513`; and the expression of the
repository's own integration test, which the test asserts to be `-122`,
evaluates to `-170`. -/
theorem c1_converter_single_pop :
    reversePolish
        [Token.operand (.naturalNumber 2), Token.operator .pow,
         Token.operand (.naturalNumber 3), Token.operator .pow,
         Token.operand (.naturalNumber 2), Token.operator .add,
         Token.operand (.naturalNumber 1)] =
      ([Token.operand (.naturalNumber 2), Token.operand (.naturalNumber 3),
        Token.operand (.naturalNumber 2), Token.operator .pow,
        Token.operand (.naturalNumber 1), Token.operator .add,
        Token.operator .pow], init_local_heap) ∧
    (reversePolish
        [Token.operand (.naturalNumber 2), Token.operator .pow,
         Token.operand (.naturalNumber 3), Token.operator .pow,
         Token.operand (.naturalNumber 2), Token.operator .add,
         Token.operand (.naturalNumber 1)]).1 ≠
      [Token.operand (.naturalNumber 2), Token.operand (.naturalNumber 3),
       Token.operand (.naturalNumber 2), Token.operator .pow,
       Token.operator .pow, Token.operand (.naturalNumber 1),
       Token.operator .add] ∧
    resolve defaultPrims
        [Token.operand (.naturalNumber 2), Token.operand (.naturalNumber 3),
         Token.operand (.naturalNumber 2), Token.operator .pow,
         Token.operand (.naturalNumber 1), Token.operator .add,
         Token.operator .pow] init_local_heap = .ok (.naturalNumber 1024) ∧
    (RpnResolver.parse "(3 + 4 * (2 - (3 + 1) * 5 + 3) - 6) * 2 + 4").map
        (fun r => resolve defaultPrims r.1 r.2) =
      some (.ok (.naturalNumber (-170))) := by
  refine ⟨by decide, by decide, by decide, by decide⟩

/-- Claim C2, counterexample.  Evaluating `"x = 5"` does return the integer
5, but it binds the key `"0"` (the display string of the left stack value,
which is `x`'s default value 0) instead of `x`: `x` stays bound to 0, so
`"x + 1"` against the same environment yields 1, not 6. -/
theorem c2_counterexample :
    RpnResolver.parse "x = 5" =
      some ([Token.var "x", Token.operand (.naturalNumber 5), Token.operator .eql],
        [("PI", .decimalNumber (.finite (mkRat 31415 10000))), ("x", .naturalNumber 0)]) ∧
    runRpn defaultPrims
        [Token.var "x", Token.operand (.naturalNumber 5), Token.operator .eql] []
        [("PI", .decimalNumber (.finite (mkRat 31415 10000))), ("x", .naturalNumber 0)] =
      .ok ([.naturalNumber 5],
        [("PI", .decimalNumber (.finite (mkRat 31415 10000))), ("x", .naturalNumber 0),
         ("0", .naturalNumber 5)]) ∧
    heapGet
        [("PI", .decimalNumber (.finite (mkRat 31415 10000))), ("x", .naturalNumber 0),
         ("0", .naturalNumber 5)] "x" ≠ some (.naturalNumber 5) ∧
    RpnResolver.parse "x + 1" =
      some ([Token.var "x", Token.operand (.naturalNumber 1), Token.operator .add],
        [("PI", .decimalNumber (.finite (mkRat 31415 10000))), ("x", .naturalNumber 0)]) ∧
    resolve defaultPrims
        [Token.var "x", Token.operand (.naturalNumber 1), Token.operator .add]
        [("PI", .decimalNumber (.finite (mkRat 31415 10000))), ("x", .naturalNumber 0),
         ("0", .naturalNumber 5)] = .ok (.naturalNumber 1) ∧
    RResult.ok (Number.naturalNumber 1) ≠ RResult.ok (Number.naturalNumber 6) := by
  refine ⟨by decide, by decide, by decide, by decide, by decide, by decide⟩

/-- Claim C2, amended.  `resolve("x = 5")` returns the integer 5 and
inserts the binding `"0" ↦ 5` into the environment (the key is the display
string of the left stack value, `x`'s current value 0); `x` itself remains
bound to integer 0, so a subsequent evaluation of `"x + 1"` against that
same environment yields the integer 1. -/
theorem c2_amended :
    runRpn defaultPrims
        [Token.var "x", Token.operand (.naturalNumber 5), Token.operator .eql] []
        [("PI", .decimalNumber (.finite (mkRat 31415 10000))), ("x", .naturalNumber 0)] =
      .ok ([.naturalNumber 5],
        [("PI", .decimalNumber (.finite (mkRat 31415 10000))), ("x", .naturalNumber 0),
         ("0", .naturalNumber 5)]) ∧
    resolve defaultPrims
        [Token.var "x", Token.operand (.naturalNumber 5), Token.operator .eql]
        [("PI", .decimalNumber (.finite (mkRat 31415 10000))), ("x", .naturalNumber 0)] =
      .ok (.naturalNumber 5) ∧
    heapGet
        [("PI", .decimalNumber (.finite (mkRat 31415 10000))), ("x", .naturalNumber 0),
         ("0", .naturalNumber 5)] "0" = some (.naturalNumber 5) ∧
    heapGet
        [("PI", .decimalNumber (.finite (mkRat 31415 10000))), ("x", .naturalNumber 0),
         ("0", .naturalNumber 5)] "x" = some (.naturalNumber 0) ∧
    resolve defaultPrims
        [Token.var "x", Token.operand (.naturalNumber 1), Token.operator .add]
        [("PI", .decimalNumber (.finite (mkRat 31415 10000))), ("x", .naturalNumber 0),
         ("0", .naturalNumber 5)] = .ok (.naturalNumber 1) := by
  refine ⟨by decide, by decide, by decide, by decide, by decide⟩

/-- Claim C3.  When the evaluator applies `Eql` it pops the right value
(the most recently pushed), then the left value, inserts the right value
into the environment under the key `left.to_string()` — the display string
of the left STACK VALUE — and pushes the right value back onto the operand
stack. -/
theorem c3_eql_display_key (P : FloatPrims) (l r : Number) (st : List Number)
    (heap : Heap) (rest : List Token) :
    runRpn P (Token.operator .eql :: rest) (r :: l :: st) heap =
      runRpn P rest (r :: st) (heapInsert heap (Number.display l) r) ∧
    runRpn P [Token.operand l, Token.operand r, Token.operator .eql] [] heap =
      .ok ([r], heapInsert heap (Number.display l) r) := ⟨rfl, rfl⟩

/-- Claim C4, counterexample.  The environment does start with
`PI ↦ 3.1415`, but the insert for a scanned `Variable` token is
unconditional: converting the one-token expression `PI` overwrites the
pre-seeded constant with the integer 0, so an already-bound identifier does
NOT keep its existing value through conversion. -/
theorem c4_counterexample :
    heapGet init_local_heap "PI" = some (.decimalNumber (.finite (mkRat 31415 10000))) ∧
    reversePolish [Token.var "PI"] = ([Token.var "PI"], [("PI", .naturalNumber 0)]) ∧
    heapGet (reversePolish [Token.var "PI"]).2 "PI" ≠
      some (.decimalNumber (.finite (mkRat 31415 10000))) := by
  refine ⟨by decide, by decide, by decide⟩

/-- Claim C4, amended.  Conversion seeds the environment with
`PI ↦ 3.1415`; the scan step for a `Variable` token inserts a binding to
integer zero UNCONDITIONALLY — `heapInsert` of zero on whatever environment
the step receives, overwriting any existing binding, including the `PI`
constant when it occurs as an identifier.  Hence after conversion every
identifier occurring in the expression is bound to integer zero, and `PI`
keeps the value 3.1415 exactly when the identifier `PI` does not occur. -/
theorem c4_amended (ts : List Token) (s : String) :
    heapGet init_local_heap "PI" =
      some (.decimalNumber (.finite (mkRat 31415 10000))) ∧
    (∀ (ops post : List Token) (heap : Heap),
      (rpnConvStep (Token.var s) ops post heap).2.2 =
        heapInsert heap s (.naturalNumber 0)) ∧
    (Token.var s ∈ ts →
      heapGet (reversePolish ts).2 s = some (.naturalNumber 0)) ∧
    (Token.var "PI" ∉ ts →
      heapGet (reversePolish ts).2 "PI" =
        some (.decimalNumber (.finite (mkRat 31415 10000)))) := by
  refine ⟨by decide, fun ops post heap => rfl, ?_, ?_⟩
  · intro h
    exact rpnScan_heap_mem s ts [] [] init_local_heap h
  · intro h
    rw [reversePolish, rpnScan_heap_not_mem _ _ _ _ _ h]
    rfl

/-- Witness for `c4_amended` at the expression `x * 2`: `x` is freshly
bound to 0 while `PI`, which does not occur as an identifier there, keeps
3.1415. -/
theorem c4_amended_witness :
    heapGet (reversePolish [Token.var "x", Token.operator .mul,
      Token.operand (.naturalNumber 2)]).2 "x" = some (.naturalNumber 0) ∧
    heapGet (reversePolish [Token.var "x", Token.operator .mul,
      Token.operand (.naturalNumber 2)]).2 "PI" =
      some (.decimalNumber (.finite (mkRat 31415 10000))) :=
  ⟨(c4_amended [Token.var "x", Token.operator .mul,
      Token.operand (.naturalNumber 2)] "x").2.2.1 (by decide),
   (c4_amended [Token.var "x", Token.operator .mul,
      Token.operand (.naturalNumber 2)] "x").2.2.2 (by decide)⟩

/-- Claim C5, counterexample.  A postfix sequence leaving TWO values on the
operand stack does not produce a typed malformed-expression error: `resolve`
returns `Ok` with the first-pushed value.  And operand-stack underflow is a
panic (`unwrap` on an empty pop), not a typed recoverable error. -/
theorem c5_counterexample :
    resolve defaultPrims
        [Token.operand (.naturalNumber 1), Token.operand (.naturalNumber 2)]
        init_local_heap = .ok (.naturalNumber 1) ∧
    resolve defaultPrims [Token.operator .add] init_local_heap =
      .fatal "unwrap on an empty operand stack" ∧
    (RResult.fatal "unwrap on an empty operand stack" =
        RResult.err "unwrap on an empty operand stack") = False := by
  refine ⟨by decide, by decide, by decide⟩

/-- Claim C5, amended.  For EVERY postfix sequence: `resolve` returns `Ok`
exactly when the run ends with a NONEMPTY operand stack, and the value
returned is the first-pushed (frontmost) one — extra leftover values are
silently ignored; the only typed recoverable error `resolve` ever produces
is the empty-final-stack message; and operand-stack underflow during a pop
— for an operator token as well as for a function token (including the
second pop of `Max`/`Min`) — is a panic (`unwrap` on an empty pop), not a
typed error. -/
theorem c5_amended (P : FloatPrims) (rpnExpr : List Token) (heap : Heap) :
    (∀ (st : List Number) (h2 : Heap),
      runRpn P rpnExpr [] heap = .ok (st, h2) →
      resolve P rpnExpr heap =
        match st.getLast? with
        | some n => .ok n
        | none => .err "Something went terribly wrong here.") ∧
    ((∃ n, resolve P rpnExpr heap = .ok n) ↔
      (∃ st h2, runRpn P rpnExpr [] heap = .ok (st, h2) ∧ st ≠ [])) ∧
    (∀ m, resolve P rpnExpr heap = .err m →
      m = "Something went terribly wrong here.") ∧
    (∀ (op : Operator) (rest : List Token) (h3 : Heap),
      runRpn P (Token.operator op :: rest) [] h3 =
        .error "unwrap on an empty operand stack") ∧
    (∀ (fn : MathFunction) (rest : List Token) (h3 : Heap),
      runRpn P (Token.function fn :: rest) [] h3 =
        .error "unwrap on an empty operand stack") ∧
    (∀ (v : Number) (rest : List Token) (h3 : Heap),
      runRpn P (Token.function .max :: rest) [v] h3 =
        .error "unwrap on an empty operand stack" ∧
      runRpn P (Token.function .min :: rest) [v] h3 =
        .error "unwrap on an empty operand stack") ∧
    (∀ ns : List Number,
      resolve P (ns.map Token.operand) heap =
        match ns.head? with
        | some n => .ok n
        | none => .err "Something went terribly wrong here.") := by
  refine ⟨?_, ?_, ?_, ?_, ?_, ?_, ?_⟩
  · intro st h2 hrun
    rw [resolve, hrun]
  · constructor
    · rintro ⟨n, hn⟩
      rw [resolve] at hn
      cases hrun : runRpn P rpnExpr [] heap with
      | error m => rw [hrun] at hn; simp at hn
      | ok s =>
        obtain ⟨st, h2⟩ := s
        rw [hrun] at hn
        refine ⟨st, h2, rfl, ?_⟩
        intro hempty
        subst hempty
        simp at hn
    · rintro ⟨st, h2, hrun, hne⟩
      rw [resolve, hrun]
      dsimp only
      cases st with
      | nil => exact absurd rfl hne
      | cons a t =>
        exact ⟨(a :: t).getLast (List.cons_ne_nil a t),
          by rw [List.getLast?_eq_getLast_of_ne_nil (List.cons_ne_nil a t)]⟩
  · intro m hm
    rw [resolve] at hm
    cases hrun : runRpn P rpnExpr [] heap with
    | error msg => rw [hrun] at hm; simp at hm
    | ok s =>
      obtain ⟨st, h2⟩ := s
      rw [hrun] at hm
      dsimp only at hm
      cases hlast : st.getLast? with
      | some n => rw [hlast] at hm; simp at hm
      | none =>
        rw [hlast] at hm
        injection hm with h
        exact h.symm
  · intro op rest h3
    cases op <;> rfl
  · intro fn rest h3
    cases fn <;> rfl
  · intro v rest h3
    exact ⟨rfl, rfl⟩
  · intro ns
    rw [resolve, runRpn_operands]
    simp only [List.append_nil, List.getLast?_reverse]

/-- Witness for `c5_amended`: a two-operand postfix run ends with two
leftover values and still resolves `Ok` with the first-pushed one; a
one-operand run resolves `Ok` through the nonempty-final-stack direction of
the equivalence. -/
theorem c5_amended_witness :
    resolve defaultPrims
        [Token.operand (.naturalNumber 7), Token.operand (.naturalNumber 8)]
        init_local_heap = .ok (.naturalNumber 7) ∧
    (∃ n, resolve defaultPrims [Token.operand (.naturalNumber 3)]
        init_local_heap = .ok n) := by
  constructor
  · have h := (c5_amended defaultPrims
        [Token.operand (.naturalNumber 7), Token.operand (.naturalNumber 8)]
        init_local_heap).1 [.naturalNumber 8, .naturalNumber 7] init_local_heap
      (by decide)
    exact h.trans (by decide)
  · exact (c5_amended defaultPrims [Token.operand (.naturalNumber 3)]
        init_local_heap).2.1.mpr
      ⟨[.naturalNumber 3], init_local_heap, by decide, by decide⟩

/-- Claim C6, counterexample.  A function token among
`asin`/`acos`/`atan`/`ln`/`log`/`sqrt` reaching the evaluator does NOT pop
one operand and push a floating result: the evaluator's function match has
no arm for those variants, so evaluation fails. -/
theorem c6_counterexample :
    resolve defaultPrims [Token.operand (.naturalNumber 0), Token.function .asin]
        init_local_heap =
      .fatal "match on MathFunction is non-exhaustive: no arm for this function" ∧
    resolve defaultPrims [Token.operand (.naturalNumber 0), Token.function .ln]
        init_local_heap =
      .fatal "match on MathFunction is non-exhaustive: no arm for this function" ∧
    resolve defaultPrims [Token.operand (.naturalNumber 0), Token.function .sqrt]
        init_local_heap =
      .fatal "match on MathFunction is non-exhaustive: no arm for this function" := by
  refine ⟨by decide, by decide, by decide⟩

/-- Claim C6, amended.  For `Sin`, `Cos`, `Tan` and `Abs` the evaluator
pops one operand and pushes the floating-point result; for `Max`/`Min` it
pops two operands and pushes their floating max/min; for `ASin`, `ACos`,
`ATan`, `Ln`, `Log` and `Sqrt` the function match has no arm, so the run
fails instead of producing a value. -/
theorem c6_amended (P : FloatPrims) (v v2 : Number) (st : List Number)
    (heap : Heap) (rest : List Token) :
    runRpn P (Token.function .sin :: rest) (v :: st) heap =
      runRpn P rest (.decimalNumber (P.sinF (numberToF64 v)) :: st) heap ∧
    runRpn P (Token.function .cos :: rest) (v :: st) heap =
      runRpn P rest (.decimalNumber (P.cosF (numberToF64 v)) :: st) heap ∧
    runRpn P (Token.function .tan :: rest) (v :: st) heap =
      runRpn P rest (.decimalNumber (P.tanF (numberToF64 v)) :: st) heap ∧
    runRpn P (Token.function .abs :: rest) (v :: st) heap =
      runRpn P rest (.decimalNumber (F64.absF (numberToF64 v)) :: st) heap ∧
    runRpn P (Token.function .max :: rest) (v :: v2 :: st) heap =
      runRpn P rest
        (.decimalNumber (F64.maxF (numberToF64 v) (numberToF64 v2)) :: st) heap ∧
    runRpn P (Token.function .min :: rest) (v :: v2 :: st) heap =
      runRpn P rest
        (.decimalNumber (F64.minF (numberToF64 v) (numberToF64 v2)) :: st) heap ∧
    runRpn P (Token.function .asin :: rest) (v :: st) heap =
      .error "match on MathFunction is non-exhaustive: no arm for this function" ∧
    runRpn P (Token.function .acos :: rest) (v :: st) heap =
      .error "match on MathFunction is non-exhaustive: no arm for this function" ∧
    runRpn P (Token.function .atan :: rest) (v :: st) heap =
      .error "match on MathFunction is non-exhaustive: no arm for this function" ∧
    runRpn P (Token.function .ln :: rest) (v :: st) heap =
      .error "match on MathFunction is non-exhaustive: no arm for this function" ∧
    runRpn P (Token.function .log :: rest) (v :: st) heap =
      .error "match on MathFunction is non-exhaustive: no arm for this function" ∧
    runRpn P (Token.function .sqrt :: rest) (v :: st) heap =
      .error "match on MathFunction is non-exhaustive: no arm for this function" :=
  ⟨rfl, rfl, rfl, rfl, rfl, rfl, rfl, rfl, rfl, rfl, rfl, rfl⟩

/-- Claim C7.  Dividing an integer `Number` by the integer `Number` zero is
a fatal arithmetic error — the `BigInt` division panics with "attempt to
divide by zero", so `resolve("1 / 0")` produces no silent result — while
division involving a float zero is total IEEE division: `resolve("1.0 / 0")`
yields positive infinity and is not an error. -/
theorem c7_div_by_zero :
    (∀ a : Int, Number.divN (.naturalNumber a) (.naturalNumber 0) =
      .error "attempt to divide by zero") ∧
    (∀ f : F64, ∀ r : Number, Number.divN (.decimalNumber f) r =
      .ok (.decimalNumber (F64.div f (numberToF64 r)))) ∧
    F64.div (.finite 1) (.finite 0) = .pinf ∧
    (RpnResolver.parse "1.0 / 0").map (fun r => resolve defaultPrims r.1 r.2) =
      some (.ok (.decimalNumber .pinf)) ∧
    (RpnResolver.parse "1 / 0").map (fun r => resolve defaultPrims r.1 r.2) =
      some (.fatal "attempt to divide by zero") := by
  refine ⟨?_, fun f r => rfl, by decide, by decide, by decide⟩
  intro a
  simp [Number.divN, apply_functional_token_operation, Except.map]

/-- Claim C8, counterexample.  The claim says integer^integer is computed
exactly whenever the exponent fits a non-negative MACHINE-SIZED (`usize`,
64-bit) integer.  But the inherent `BigInt::pow` method the source calls
takes a `u32` exponent (the `expect` message "Exponent must fit in usize"
names the wrong type), so the exponent 2^32 = 4294967296 — comfortably a
`usize` — panics instead of being computed. -/
theorem c8_counterexample :
    (0 : Int) ≤ 4294967296 ∧
    (4294967296 : Int) ≤ 2 ^ 64 - 1 ∧
    Number.powN defaultPrims (.naturalNumber 2) (.naturalNumber 4294967296) =
      .error "Exponent must fit in usize" := by
  refine ⟨by decide, by decide, by decide⟩

/-- Claim C8, amended.  Raising an integer `Number` to an integer `Number`
exponent computes exact arbitrary-precision exponentiation when the
exponent fits a non-negative `u32` (the exponent type of the inherent
`BigInt::pow` the source calls); it fails fatally (the `try_into` panic,
whose message "Exponent must fit in usize" names the wrong type) when the
exponent is negative or exceeds `u32::MAX` = 4294967295; and any float
operand dispatches to `f64::powf`. -/
theorem c8_pow (P : FloatPrims) (a b : Int) (f : F64) (x : Number) :
    (0 ≤ b → b ≤ u32Max →
      Number.powN P (.naturalNumber a) (.naturalNumber b) =
        .ok (.naturalNumber (a ^ b.toNat))) ∧
    (b < 0 ∨ u32Max < b →
      Number.powN P (.naturalNumber a) (.naturalNumber b) =
        .error "Exponent must fit in usize") ∧
    (Number.powN P (.decimalNumber f) x =
      .ok (.decimalNumber (P.powf f (numberToF64 x)))) ∧
    (Number.powN P (.naturalNumber a) (.decimalNumber f) =
      .ok (.decimalNumber (P.powf (intToF64 a) f))) := by
  refine ⟨?_, ?_, rfl, rfl⟩
  · intro h1 h2
    simp [Number.powN, apply_functional_token_operation, Except.map, h1, h2]
  · intro h
    have hcond : ¬ (0 ≤ b ∧ b ≤ u32Max) := by
      rcases h with h | h
      · exact fun hc => absurd hc.1 (not_le.mpr h)
      · exact fun hc => absurd hc.2 (not_le.mpr h)
    simp [Number.powN, apply_functional_token_operation, Except.map, hcond]

/-- Witness for `c8_pow`: `2 ^ 10 = 1024` exactly, and a negative exponent
fails fatally. -/
theorem c8_pow_witness :
    Number.powN defaultPrims (.naturalNumber 2) (.naturalNumber 10) =
      .ok (.naturalNumber 1024) ∧
    Number.powN defaultPrims (.naturalNumber 2) (.naturalNumber (-1)) =
      .error "Exponent must fit in usize" := by
  constructor
  · have h := (c8_pow defaultPrims 2 10 F64.nan (Number.naturalNumber 0)).1
      (by decide) (by decide)
    exact h.trans (by rfl)
  · exact (c8_pow defaultPrims 2 (-1) F64.nan (Number.naturalNumber 0)).2.1
      (Or.inl (by decide))

/-- Claim C9, counterexample.  `partial_cmp` of the integer 1 and the float
1.0 is `Equal` (the promotion rules), but `==` (`PartialEq`) on `Number` is
DERIVED, hence structural: `NaturalNumber(1) == DecimalNumber(1.0)` is
false — an integer and a float denoting the same numeric value do NOT
compare equal. -/
theorem c9_counterexample :
    Number.partialCmp (.naturalNumber 1) (.decimalNumber (.finite 1)) = some .eq ∧
    Number.eqRust (.naturalNumber 1) (.decimalNumber (.finite 1)) = false ∧
    Number.ltRust (.naturalNumber 1) (.decimalNumber (.finite 1)) = false ∧
    Number.ltRust (.decimalNumber (.finite 1)) (.naturalNumber 1) = false := by
  refine ⟨by decide, by decide, by decide, by decide⟩

/-- Claim C9, amended.  The partial ORDER is defined pairwise with
integer-to-float promotion: comparing an integer with a float converts the
integer side, so equal-valued mixed pairs compare `Equal` and neither is
strictly less.  EQUALITY however is the derived structural `PartialEq`, so
a `NaturalNumber` never equals a `DecimalNumber`. -/
theorem c9_amended (i : Int) (f : F64) :
    Number.partialCmp (.naturalNumber i) (.decimalNumber f) =
      F64.cmp (intToF64 i) f ∧
    Number.partialCmp (.decimalNumber f) (.naturalNumber i) =
      F64.cmp f (intToF64 i) ∧
    Number.partialCmp (.naturalNumber i) (.decimalNumber (intToF64 i)) = some .eq ∧
    Number.ltRust (.naturalNumber i) (.decimalNumber (intToF64 i)) = false ∧
    Number.ltRust (.decimalNumber (intToF64 i)) (.naturalNumber i) = false ∧
    Number.eqRust (.naturalNumber i) (.decimalNumber (intToF64 i)) = false := by
  have hcmp : Number.partialCmp (.naturalNumber i) (.decimalNumber (intToF64 i)) =
      some .eq := by
    simp [Number.partialCmp, intToF64, F64.cmp, ratCmp]
  have hcmp2 : Number.partialCmp (.decimalNumber (intToF64 i)) (.naturalNumber i) =
      some .eq := by
    simp [Number.partialCmp, intToF64, F64.cmp, ratCmp]
  refine ⟨rfl, rfl, hcmp, ?_, ?_, rfl⟩
  · rw [Number.ltRust, hcmp]; rfl
  · rw [Number.ltRust, hcmp2]; rfl

/-- Claim C10.  The token layer maps `'#'` to `Une` and `'!'` to `Fac`,
with converter precedences 4 (right-associative) and 5 (left-associative);
the evaluator's operator match has no arm for `Une` or `Fac`, so a postfix
sequence containing either never evaluates to a `Number`; and `tokenize`
never emits `Une`, because `'#'` is not in its operator-character
dispatch. -/
theorem c10_une_fac :
    Token.from_operator '#' = some (.operator .une) ∧
    Token.from_operator '!' = some (.operator .fac) ∧
    Token.operator_priority (.operator .une) = some (4, .rightAssociative) ∧
    Token.operator_priority (.operator .fac) = some (5, .leftAssociative) ∧
    (∀ (P : FloatPrims) (rpnExpr : List Token) (heap : Heap),
      Token.operator .une ∈ rpnExpr ∨ Token.operator .fac ∈ rpnExpr →
      ∀ n, resolve P rpnExpr heap ≠ .ok n) ∧
    (∀ s : String, Token.tokenize s ≠ some (.operator .une)) := by
  refine ⟨by decide, by decide, by decide, by decide, ?_, tokenize_never_une⟩
  intro P rpnExpr heap hmem n
  rw [resolve]
  cases hrun : runRpn P rpnExpr [] heap with
  | error m => simp
  | ok s =>
    exact absurd hrun (by
      obtain ⟨st, h2⟩ := s
      exact runRpn_une_fac_not_ok P rpnExpr hmem [] heap st h2)

/-- Witness for `c10_une_fac`: the one-token postfix sequence `[Fac]`
(produced, e.g., for the input `!`) does not resolve to a value, and
tokenizing `"#"` yields a variable token, not `Une`. -/
theorem c10_une_fac_witness :
    resolve defaultPrims [Token.operator .fac] init_local_heap ≠
      .ok (.naturalNumber 1) ∧
    Token.tokenize "#" ≠ some (.operator .une) :=
  ⟨c10_une_fac.2.2.2.2.1 defaultPrims [Token.operator .fac] init_local_heap
      (Or.inr (List.mem_singleton.mpr rfl)) (.naturalNumber 1),
   c10_une_fac.2.2.2.2.2 "#"⟩

end Yarer
